import Mathlib

/-!
Shallow embedding of src/saber/utils/parallelization.py (the GPUPool class
and the gpu_map convenience function), together with theorems checking the
natural-language specification of the repository against this embedding.

Modelling conventions:
* Python values that cross the GPUPool API boundary are modelled by the
  inductive type PyVal (ints, strings, dicts with string keys, tuples and
  lists); an opaque scalar payload is represented by an int or a string.
* A raised Python exception is modelled by Except.error carrying a string
  description of the exception, mirroring the str(e) used by the source.
* Wall-clock timing (time.time() differences) is not representable in a
  shallow embedding; every elapsed duration is abstracted as the constant
  0.  What the embedding does track faithfully is on which result records
  the processing_time key is present at all.
* Scheduling nondeterminism is made explicit: the completion order of the
  threaded futures, the assignment of shared-queue items to worker
  processes, and the arrival order on the multiprocessing result queue are
  extra parameters of the execution functions, ranging over all
  interleavings the runtime could produce.
-/

namespace Saber

/-- Model of the Python values that cross the GPUPool API boundary. -/
inductive PyVal where
  | int : Int → PyVal
  | str : String → PyVal
  | dict : List (String × PyVal) → PyVal
  | tuple : List PyVal → PyVal
  | list : List PyVal → PyVal

/-- Python keyword-argument dictionaries: insertion-ordered string-keyed
association lists, as Python dicts are. -/
abbrev PyKwargs := List (String × PyVal)

/-- Python dict item assignment d[k] = v: replaces the value in place if the
key is present (keeping its position), otherwise appends the new key at the
end, exactly like CPython insertion-ordered dicts. -/
def dictSet : PyKwargs → String → PyVal → PyKwargs
  | [], k, v => [(k, v)]
  | (k', v') :: rest, k, v =>
    if k' = k then (k, v) :: rest else (k', v') :: dictSet rest k v

/-- A user work function: receives the positional-argument value and the
keyword-argument dict, returns a value or raises (Except.error). -/
abbrev Func := PyVal → PyKwargs → Except String PyVal

/-- A user initializer: receives the gpu id, returns the models value or
raises.  The init_args / init_kwargs captured by the pool are folded into
the function itself, since no claim depends on them. -/
abbrev InitFn := Nat → Except String PyVal

/-- One result record, as built by worker_thread (parallelization.py lines
121-135) and _worker_process (lines 243-257).  The success record carries
the keys success, task_id, gpu_id, processing_time, result; the failure
record carries only success, task_id, gpu_id, error.  The two constructors
record exactly which keys each shape of record has. -/
inductive Outcome where
  | succ (task_id : PyVal) (gpu_id : Nat) (processing_time : Nat) (result : PyVal)
  | fail (task_id : PyVal) (gpu_id : Nat) (error : String)

/-- The success flag of a result record. -/
def Outcome.success : Outcome → Bool
  | .succ _ _ _ _ => true
  | .fail _ _ _ => false

/-- The task_id key of a result record (present on both shapes). -/
def Outcome.task_id : Outcome → PyVal
  | .succ t _ _ _ => t
  | .fail t _ _ => t

/-- The gpu_id key of a result record (present on both shapes). -/
def Outcome.gpu_id : Outcome → Nat
  | .succ _ g _ _ => g
  | .fail _ g _ => g

/-- The processing_time key of a result record, none when the key is absent
(the failure records never set it). -/
def Outcome.processing_time_opt : Outcome → Option Nat
  | .succ _ _ p _ => some p
  | .fail _ _ _ => none

/-- The result key of a result record, none when the key is absent. -/
def Outcome.result_opt : Outcome → Option PyVal
  | .succ _ _ _ r => some r
  | .fail _ _ _ => none

/-- The error key of a result record, none when the key is absent. -/
def Outcome.error_opt : Outcome → Option String
  | .succ _ _ _ _ => none
  | .fail _ _ e => some e

/-! ### Task payload normalization

Both engines normalize a task payload with the same four-way test
(parallelization.py lines 142-149 for threading, lines 293-300 for
multiprocessing).  The code is duplicated in the source, so it is
duplicated here, one definition per engine. -/

/-- Payload normalization as written in _execute_threading (lines 142-149):
isinstance dict first; then tuple of length 2 whose second element is a
dict; then list or tuple; otherwise a bare value. -/
def normalize_task_threading (task : PyVal) : PyVal × PyKwargs :=
  match task with
  | .dict d => (.tuple [], d)
  | .tuple [a, .dict d] => (a, d)
  | .tuple es => (.tuple es, [])
  | .list es => (.list es, [])
  | t => (.tuple [t], [])

/-- Payload normalization as written in _execute_multiprocessing (lines
293-300); textually identical to the threading copy. -/
def normalize_task_multiprocessing (task : PyVal) : PyVal × PyKwargs :=
  match task with
  | .dict d => (.tuple [], d)
  | .tuple [a, .dict d] => (a, d)
  | .tuple es => (.tuple es, [])
  | .list es => (.list es, [])
  | t => (.tuple [t], [])

/-- Normalization following the words of the spec (section 4.2): a mapping;
then a 2-element SEQUENCE whose second element is a mapping (a sequence
being a tuple or a list); then any other sequence; then a bare value.
This definition follows the spec text, to be compared with the definitions
taken from the code. -/
def normalize_task_spec (task : PyVal) : PyVal × PyKwargs :=
  match task with
  | .dict d => (.tuple [], d)
  | .tuple [a, .dict d] => (a, d)
  | .list [a, .dict d] => (a, d)
  | .tuple es => (.tuple es, [])
  | .list es => (.list es, [])
  | t => (.tuple [t], [])

/-- Normalization following the spec amended so that the second rule
applies to 2-element TUPLES only, matching the isinstance(task, tuple)
test in the code. -/
def normalize_task_spec_amended (task : PyVal) : PyVal × PyKwargs :=
  match task with
  | .dict d => (.tuple [], d)
  | .tuple [a, .dict d] => (a, d)
  | .tuple es => (.tuple es, [])
  | .list es => (.list es, [])
  | t => (.tuple [t], [])

/-! ### The sort at the end of execute

execute (line 380) returns sorted(results, key=lambda x: x.get('task_id', 0)).
Every record built by either engine has the task_id key, so the key function
is the task_id projection.  Python sorted is a stable ascending sort whose
comparisons use < on the keys; comparing an int with a str (or any pair the
interpreter cannot order) raises TypeError.  A stable binary insertion of
each element into the already-sorted prefix produces the same output list
as Python sorted whenever all comparisons succeed, and performs the single
possible comparison on two-element lists, so it is used as the model. -/

/-- Python < on task-id keys: ints compare by integer order, strings by
lexicographic order; any other pair of shapes raises TypeError, as CPython
does for int-vs-str, dict-vs-dict and other unordered pairs.  (Python can
also order two lists or two tuples; no task id of those shapes occurs in
any claim, and the model treats them as unordered.) -/
def pyLt : PyVal → PyVal → Except String Bool
  | .int a, .int b => .ok (decide (a < b))
  | .str a, .str b => .ok (decide (a < b))
  | _, _ => .error "TypeError: '<' not supported between instances"

/-- Stable insertion of an outcome into a list sorted ascending by task id:
the new element goes in front of the first strictly greater element, hence
after any equal ones (stability).  A failing key comparison propagates as
the TypeError it raises in Python. -/
def insert_by_tid (o : Outcome) : List Outcome → Except String (List Outcome)
  | [] => .ok [o]
  | x :: xs =>
    match pyLt (Outcome.task_id o) (Outcome.task_id x) with
    | .error e => .error e
    | .ok true => .ok (o :: x :: xs)
    | .ok false =>
      match insert_by_tid o xs with
      | .ok r => .ok (x :: r)
      | .error e => .error e

/-- Insert the remaining elements one by one into the sorted accumulator. -/
def pysorted_from (acc : List Outcome) : List Outcome → Except String (List Outcome)
  | [] => .ok acc
  | o :: os =>
    match insert_by_tid o acc with
    | .ok acc2 => pysorted_from acc2 os
    | .error e => .error e

/-- Model of sorted(results, key=lambda x: x.get('task_id', 0)) at line
380: stable ascending sort by task id, raising TypeError when two keys
cannot be ordered. -/
def pysorted (l : List Outcome) : Except String (List Outcome) :=
  pysorted_from [] l

/-! ### Shared helpers for both engines -/

/-- Python enumerate, starting at index k. -/
def enumFromIdx (k : Nat) : List α → List (Nat × α)
  | [] => []
  | a :: as => (k, a) :: enumFromIdx (k + 1) as

/-- Reorder a list by an index sequence: the i-th emitted element is the
element of l at position order[i].  Used to model a nondeterministic
completion or arrival order; when order is a permutation of the positions
of l, the result is the corresponding permutation of l. -/
def permuteIdx (order : List Nat) (l : List α) : List α :=
  order.filterMap (fun i => l[i]?)

/-- task_ids defaulting in execute (lines 368-369): when no ids are given,
use list(range(len(tasks))). -/
def resolve_ids (task_ids : Option (List PyVal)) (tasks : List PyVal) : List PyVal :=
  match task_ids with
  | some ids => ids
  | none => (List.range tasks.length).map (fun i => PyVal.int (i : Int))

/-! ### Threading engine -/

/-- The per-gpu state built by _initialize_models_threading, looping over
gpu ids in order (lines 70-89): for each gpu id, call init_fn(gpu_id, ...)
when an init_fn was supplied — its exception, if any, propagates out of the
loop, since the source wraps the call in no try/except — and store the
resulting models value (None when there is no init_fn).  The model returns
the association list of per-gpu models slots. -/
def init_models_loop (init_fn : Option InitFn) : List Nat → Except String (List (Nat × Option PyVal))
  | [] => .ok []
  | g :: gs =>
    match init_fn with
    | some f =>
      match f g with
      | .error e => .error e
      | .ok m =>
        match init_models_loop init_fn gs with
        | .error e => .error e
        | .ok rest => .ok ((g, some m) :: rest)
    | none =>
      match init_models_loop init_fn gs with
      | .error e => .error e
      | .ok rest => .ok ((g, none) :: rest)

/-- Source name: _initialize_models_threading (lines 65-93). -/
def init_models_threading (init_fn : Option InitFn) (n_gpus : Nat) :
    Except String (List (Nat × Option PyVal)) :=
  init_models_loop init_fn (List.range n_gpus)

/-- Lookup of self.models[gpu_id].  After a successful initialization every
gpu id in [0, n_gpus) is present, and the engines only look up such ids, so
the none default for a missing key is never reached on engine-generated
lookups. -/
def models_at (ms : List (Nat × Option PyVal)) (g : Nat) : Option PyVal :=
  match ms.lookup g with
  | some m => m
  | none => none

/-- The keyword augmentation done by worker_thread (lines 112-115):
enhanced_kwargs = kwargs.copy(); enhanced_kwargs['gpu_id'] = gpu_id;
and, when models[gpu_id] is not None, enhanced_kwargs['models'] = models. -/
def enhanced_kwargs (models : Nat → Option PyVal) (g : Nat) (kwargs : PyKwargs) : PyKwargs :=
  let ek := dictSet kwargs "gpu_id" (.int (g : Int))
  match models g with
  | some m => dictSet ek "models" m
  | none => ek

/-- One prepared task of _execute_threading (lines 138-151):
(task_id, gpu_id, args, kwargs) with gpu_id = i % n_gpus round-robin over
the enumeration of zip(task_ids, tasks). -/
def prepare_tasks (n_gpus : Nat) (ids tasks : List PyVal) :
    List (PyVal × Nat × PyVal × PyKwargs) :=
  (enumFromIdx 0 (List.zip ids tasks)).map (fun it =>
    let ak := normalize_task_threading it.2.2
    (it.2.1, it.1 % n_gpus, ak.1, ak.2))

/-- worker_thread (lines 100-135): augment the kwargs, call the user
function, and build the success or failure record.  Any exception raised
inside the try block — the model's exception source is the user function —
is caught and turned into the failure record. -/
def worker_thread (models : Nat → Option PyVal) (func : Func) :
    PyVal × Nat × PyVal × PyKwargs → Outcome
  | (tid, g, args, kwargs) =>
    match func args (enhanced_kwargs models g kwargs) with
    | .ok r => .succ tid g 0 r
    | .error e => .fail tid g e

/-- The unordered result list built by the thread pool of
_execute_threading (lines 154-178), before any reordering: one record per
prepared task. -/
def threading_results (models : Nat → Option PyVal) (func : Func) (n_gpus : Nat)
    (ids tasks : List PyVal) : List Outcome :=
  (prepare_tasks n_gpus ids tasks).map (worker_thread models func)

/-- _execute_threading (lines 95-178): initialize the shared models (their
exception, if any, propagating), run every prepared task, and collect the
records in completion order.  The completion order of as_completed is the
nondeterminism parameter order. -/
def execute_threading (init_fn : Option InitFn) (func : Func) (n_gpus : Nat)
    (ids tasks : List PyVal) (order : List Nat) : Except String (List Outcome) :=
  match init_models_threading init_fn n_gpus with
  | .error e => .error e
  | .ok ms => .ok (permuteIdx order (threading_results (models_at ms) func n_gpus ids tasks))

/-! ### Multiprocessing engine -/

/-- The per-process initialization at the top of _worker_process (lines
197-215): models = None, then models = init_fn(gpu_id, ...) when an init_fn
was supplied; an exception is reported by the enclosing except clause. -/
def worker_init (init_fn : Option InitFn) (g : Nat) : Except String (Option PyVal) :=
  match init_fn with
  | some f =>
    match f g with
    | .ok m => .ok (some m)
    | .error e => .error e
  | none => .ok none

/-- The keyword augmentation inside _worker_process (lines 235-238),
textually identical to the threading one but reading the process-local
models value. -/
def enhanced_kwargs_mp (m : Option PyVal) (g : Nat) (kwargs : PyKwargs) : PyKwargs :=
  let ek := dictSet kwargs "gpu_id" (.int (g : Int))
  match m with
  | some mv => dictSet ek "models" mv
  | none => ek

/-- Execution of one dequeued task inside _worker_process (lines 230-257):
call the user function with augmented kwargs and push the success or
failure record. -/
def run_task_mp (m : Option PyVal) (func : Func) (g : Nat) :
    PyVal × PyVal × PyKwargs → Outcome
  | (tid, args, kwargs) =>
    match func args (enhanced_kwargs_mp m g kwargs) with
    | .ok r => .succ tid g 0 r
    | .error e => .fail tid g e

/-- The items put on the shared task queue by _execute_multiprocessing
(lines 292-302), in submission order: (task_id, args, kwargs) after the
same normalization as the threading engine.  (The queue item also carries
func; it is the same for every item and is passed separately here.) -/
def submitted (ids tasks : List PyVal) : List (PyVal × PyVal × PyKwargs) :=
  (List.zip ids tasks).map (fun tt =>
    let ak := normalize_task_multiprocessing tt.2
    (tt.1, ak.1, ak.2))

/-- Everything worker process g puts on the shared result queue, in its
own emission order (_worker_process, lines 195-284).  The schedule sched
records which worker dequeued each submitted task: the queue is a single
shared FIFO, so the k-th dequeued item is the k-th submitted one, and
sched k names the worker that got it; a worker whose initialization raised
dequeues nothing (it dies before its task loop), puts exactly one
INIT_FAILED record, and exits. -/
def worker_outputs (init_fn : Option InitFn) (func : Func) (sched : Nat → Nat)
    (ids tasks : List PyVal) (g : Nat) : List Outcome :=
  match worker_init init_fn g with
  | .error e =>
    [Outcome.fail (.str "INIT_FAILED") g ("Worker initialization failed: " ++ e)]
  | .ok m =>
    ((enumFromIdx 0 (submitted ids tasks)).filter (fun kt => sched kt.1 == g)).map
      (fun kt => run_task_mp m func g kt.2)

/-- Concatenation of blocks, one per gpu id: the multiset of records on
the shared result queue. -/
def flatAll (gs : List Nat) (f : Nat → List α) : List α :=
  match gs with
  | [] => []
  | g :: rest => f g ++ flatAll rest f

/-- All records ever pushed on the shared result queue during one batch. -/
def mp_channel (init_fn : Option InitFn) (func : Func) (n_gpus : Nat) (sched : Nat → Nat)
    (ids tasks : List PyVal) : List Outcome :=
  flatAll (List.range n_gpus) (worker_outputs init_fn func sched ids tasks)

/-- _execute_multiprocessing (lines 286-331): submit every task, then read
exactly len(tasks) records from the result queue.  The arrival order of
records on the shared queue is the nondeterminism parameter arrival (an
index sequence into the channel content).  When fewer than len(tasks)
records ever arrive, the collection loop blocks forever; that divergence
is modelled as none. -/
def execute_multiprocessing (init_fn : Option InitFn) (func : Func) (n_gpus : Nat)
    (sched : Nat → Nat) (arrival : List Nat) (ids tasks : List PyVal) :
    Option (List Outcome) :=
  let arrivals := permuteIdx arrival (mp_channel init_fn func n_gpus sched ids tasks)
  if tasks.length ≤ arrivals.length then some (arrivals.take tasks.length) else none

/-! ### The unified execute entry point -/

/-- The two strategies a pool can be constructed with (an invalid name
raises ValueError at construction and creates no pool). -/
inductive Approach where
  | threading
  | multiprocessing
deriving DecidableEq

/-- execute (lines 352-380): an empty task list returns [] immediately;
otherwise resolve the ids, dispatch to the configured engine, and return
sorted(results, key=task_id).  The outer Option is termination (none when
the multiprocessing collection blocks forever); the inner Except is a
raised exception escaping execute. -/
def GPUPool_execute (approach : Approach) (init_fn : Option InitFn) (func : Func)
    (n_gpus : Nat) (tasks : List PyVal) (task_ids : Option (List PyVal))
    (order : List Nat) (sched : Nat → Nat) (arrival : List Nat) :
    Option (Except String (List Outcome)) :=
  if tasks.isEmpty then some (.ok [])
  else
    let ids := resolve_ids task_ids tasks
    match approach with
    | .threading =>
      match execute_threading init_fn func n_gpus ids tasks order with
      | .error e => some (.error e)
      | .ok results => some (pysorted results)
    | .multiprocessing =>
      match execute_multiprocessing init_fn func n_gpus sched arrival ids tasks with
      | some results => some (pysorted results)
      | none => none

/-! ### Pool lifecycle: start and shutdown -/

/-- Externally visible side effects of start and shutdown. -/
inductive PoolAction where
  | spawn_worker (g : Nat)
  | put_sentinel
  | join_worker (g : Nat)
deriving DecidableEq

/-- The lifecycle attributes of a pool.  started is an Option because the
threading constructor path (_init_threading, lines 56-63) never creates the
started attribute: none models the absent attribute, whose read would raise
AttributeError.  Both start and shutdown test the approach first, so on a
threading pool they never read it — mirroring the short-circuit of the
Python conjunction. -/
structure PoolState where
  approach : Approach
  n_gpus : Nat
  started : Option Bool
  workers : List Nat
  shutdown_ev : Bool
deriving DecidableEq

/-- Pool construction (lines 30-50): _init_threading sets no lifecycle
attributes; _init_multiprocessing (lines 184-190) sets started = False,
workers = [] and a cleared shutdown event. -/
def GPUPool_mk (approach : Approach) (n_gpus : Nat) : PoolState :=
  match approach with
  | .threading =>
    { approach := .threading, n_gpus := n_gpus, started := none
      workers := [], shutdown_ev := false }
  | .multiprocessing =>
    { approach := .multiprocessing, n_gpus := n_gpus, started := some false
      workers := [], shutdown_ev := false }

/-- start (lines 333-346): only when the approach is multiprocessing and
started is falsy, spawn one worker per gpu and set started = True. -/
def GPUPool_start (s : PoolState) : Except String (PoolState × List PoolAction) :=
  if s.approach = .multiprocessing then
    match s.started with
    | none => .error "AttributeError: started"
    | some true => .ok (s, [])
    | some false =>
      .ok ({ s with workers := List.range s.n_gpus, started := some true },
        (List.range s.n_gpus).map PoolAction.spawn_worker)
  else .ok (s, [])

/-- shutdown (lines 413-437): only when the approach is multiprocessing
and started is truthy, set the shutdown event, push one sentinel per gpu
(best-effort), join every worker, and set started = False.  In every other
case nothing is read or written beyond the approach test and the started
attribute. -/
def GPUPool_shutdown (s : PoolState) : Except String (PoolState × List PoolAction) :=
  if s.approach = .multiprocessing then
    match s.started with
    | none => .error "AttributeError: started"
    | some false => .ok (s, [])
    | some true =>
      .ok ({ s with shutdown_ev := true, started := some false },
        (List.range s.n_gpus).map (fun _ => PoolAction.put_sentinel)
          ++ s.workers.map PoolAction.join_worker)
  else .ok (s, [])

/-! ### The gpu_map convenience function -/

/-- Number of positional parameters GPUPool.__init__ accepts besides self
(lines 30-35): approach, init_fn, init_args, init_kwargs, verbose. -/
def GPUPool_init_nparams : Nat := 5

/-- Number of positional arguments gpu_map passes to GPUPool (line 470):
n_gpus, approach, init_fn, init_args, init_kwargs, model_size_gb,
verbose. -/
def gpu_map_ctor_nargs : Nat := 7

/-- Python call-arity semantics: a call supplying more positional arguments
than the callee has positional parameters raises TypeError before the
callee body runs. -/
def call_arity_check (nparams nargs : Nat) : Except String Unit :=
  if nargs ≤ nparams then .ok ()
  else .error "TypeError: __init__() takes from 1 to 6 positional arguments but 8 were given"

/-- gpu_map (lines 451-471): with GPUPool(n_gpus, approach, init_fn,
init_args, init_kwargs, model_size_gb, verbose) as pool: return
pool.execute(func, tasks).  The construction is the first thing evaluated;
its arity check fails (7 positional arguments against 5 positional
parameters), so the TypeError is raised before any pool exists and before
any task runs.  The ok branch of the arity check is unreachable for these
constants; the none it returns stands for the never-evaluated remainder of
the body. -/
def gpu_map (func : Func) (tasks : List PyVal) : Option (Except String (List Outcome)) :=
  match call_arity_check GPUPool_init_nparams gpu_map_ctor_nargs with
  | .error e => some (.error e)
  | .ok _ => none

/-! ### Predicates used by the verification theorems -/

/-- Every task id in the list of records is a Python int (the shape the
default ids list(range(len(tasks))) always has, and the canonical mutually
comparable batch). -/
def all_int_ids (l : List Outcome) : Prop :=
  ∀ o ∈ l, ∃ k : Int, Outcome.task_id o = PyVal.int k

/-- The integer of an int task id (0 for other shapes; only ever applied
under all_int_ids). -/
def tid_int (o : Outcome) : Int :=
  match Outcome.task_id o with
  | .int k => k
  | _ => 0

/-- Records are in ascending task-id order. -/
def sorted_by_tid (l : List Outcome) : Prop :=
  l.Chain' (fun a b => tid_int a ≤ tid_int b)

/-! ## Helper lemmas about the sort model -/

theorem insert_by_tid_int (o : Outcome) (acc : List Outcome)
    (ko : Int) (hko : Outcome.task_id o = PyVal.int ko)
    (hacc : all_int_ids acc) :
    ∃ r, insert_by_tid o acc = .ok r ∧ r.Perm (o :: acc) ∧ all_int_ids r ∧
      (sorted_by_tid acc → sorted_by_tid r) ∧
      (r.head? = some o ∨ r.head? = acc.head?) := by
  induction acc with
  | nil =>
    refine ⟨[o], rfl, List.Perm.refl _, ?_, fun _ => List.chain'_singleton o, Or.inl rfl⟩
    intro y hy
    rcases List.mem_singleton.mp hy with h
    exact ⟨ko, h ▸ hko⟩
  | cons x xs ih =>
    obtain ⟨kx, hkx⟩ := hacc x (List.mem_cons_self x xs)
    have hxs : all_int_ids xs := fun y hy => hacc y (List.mem_cons_of_mem x hy)
    have hpy : pyLt (Outcome.task_id o) (Outcome.task_id x) = .ok (decide (ko < kx)) := by
      rw [hko, hkx]; rfl
    by_cases hlt : ko < kx
    · refine ⟨o :: x :: xs, ?_, List.Perm.refl _, ?_, ?_, Or.inl rfl⟩
      · simp [insert_by_tid, hpy, hlt]
      · intro y hy
        rcases List.mem_cons.mp hy with h | h
        · exact ⟨ko, h ▸ hko⟩
        · exact hacc y h
      · intro hs
        refine List.chain'_cons'.mpr ⟨?_, hs⟩
        intro y hy
        simp only [List.head?_cons, Option.mem_def, Option.some.injEq] at hy
        subst hy
        simp [tid_int, hko, hkx]
        omega
    · have hle : kx ≤ ko := by omega
      obtain ⟨r', hr', hperm, hint, hsort, hhead⟩ := ih hxs
      refine ⟨x :: r', ?_, ?_, ?_, ?_, Or.inr rfl⟩
      · simp [insert_by_tid, hpy, hlt, hr']
      · exact (hperm.cons x).trans (List.Perm.swap o x xs)
      · intro y hy
        rcases List.mem_cons.mp hy with h | h
        · exact ⟨kx, h ▸ hkx⟩
        · exact hint y h
      · intro hs
        have hs' : sorted_by_tid xs := hs.tail
        refine List.chain'_cons'.mpr ⟨?_, hsort hs'⟩
        intro y hy
        rcases hhead with hh | hh
        · rw [hh] at hy
          simp only [Option.mem_def, Option.some.injEq] at hy
          subst hy
          simp [tid_int, hko, hkx]
          omega
        · rw [hh] at hy
          exact (List.chain'_cons'.mp hs).1 y hy

theorem pysorted_from_int (l : List Outcome) :
    ∀ acc : List Outcome, all_int_ids acc → all_int_ids l → sorted_by_tid acc →
    ∃ r, pysorted_from acc l = .ok r ∧ r.Perm (acc ++ l) ∧ all_int_ids r ∧ sorted_by_tid r := by
  induction l with
  | nil =>
    intro acc hacc _ hs
    exact ⟨acc, rfl, by simp, hacc, hs⟩
  | cons o os ih =>
    intro acc hacc hl hs
    obtain ⟨ko, hko⟩ := hl o (List.mem_cons_self o os)
    have hos : all_int_ids os := fun y hy => hl y (List.mem_cons_of_mem o hy)
    obtain ⟨r1, hr1, hp1, hi1, hs1, _⟩ := insert_by_tid_int o acc ko hko hacc
    obtain ⟨r, hr, hp, hi, hsr⟩ := ih r1 hi1 hos (hs1 hs)
    refine ⟨r, ?_, ?_, hi, hsr⟩
    · simp [pysorted_from, hr1, hr]
    · exact hp.trans ((hp1.append_right os).trans List.perm_middle.symm)

theorem pysorted_int (l : List Outcome) (hl : all_int_ids l) :
    ∃ r, pysorted l = .ok r ∧ r.Perm l ∧ sorted_by_tid r := by
  obtain ⟨r, hr, hp, _, hs⟩ :=
    pysorted_from_int l [] (fun y hy => absurd hy (List.not_mem_nil y)) hl List.chain'_nil
  exact ⟨r, hr, by simpa using hp, hs⟩

/-! ## Helper lemmas about enumeration and reordering -/

theorem enumFromIdx_getElem? (l : List α) :
    ∀ (k i : Nat), (enumFromIdx k l)[i]? = l[i]?.map (fun a => (k + i, a)) := by
  induction l with
  | nil => intro k i; simp [enumFromIdx]
  | cons a as ih =>
    intro k i
    cases i with
    | zero => simp [enumFromIdx]
    | succ j =>
      simp only [enumFromIdx, List.getElem?_cons_succ, ih (k + 1) j]
      have harith : k + 1 + j = k + (j + 1) := by omega
      rw [harith]

theorem enumFromIdx_map_snd (l : List α) (f : α → β) :
    ∀ k, (enumFromIdx k l).map (fun p => f p.2) = l.map f := by
  induction l with
  | nil => intro k; simp [enumFromIdx]
  | cons a as ih => intro k; simp [enumFromIdx, ih]

theorem mem_enumFromIdx (l : List α) :
    ∀ (k : Nat) (p : Nat × α), p ∈ enumFromIdx k l → k ≤ p.1 ∧ p.1 < k + l.length := by
  induction l with
  | nil => intro k p hp; simp [enumFromIdx] at hp
  | cons a as ih =>
    intro k p hp
    rcases List.mem_cons.mp hp with h | h
    · subst h
      refine ⟨Nat.le_refl _, ?_⟩
      simp only [List.length_cons]
      omega
    · have := ih (k + 1) p h
      simp only [List.length_cons]
      omega

theorem permuteIdx_range (l : List α) : permuteIdx (List.range l.length) l = l := by
  induction l with
  | nil => rfl
  | cons a as ih =>
    show List.filterMap (fun i => (a :: as)[i]?) (List.range (as.length + 1)) = a :: as
    rw [List.range_succ_eq_map]
    rw [show List.filterMap (fun i => (a :: as)[i]?) (0 :: List.map Nat.succ (List.range as.length))
        = a :: List.filterMap (fun i => (a :: as)[i]?) (List.map Nat.succ (List.range as.length))
      from List.filterMap_cons_some (by simp)]
    rw [List.filterMap_map]
    have hfun : ((fun i => (a :: as)[i]?) ∘ Nat.succ) = fun i => as[i]? := by
      funext i
      simp
    rw [hfun]
    exact congrArg (a :: ·) ih

theorem permuteIdx_perm (order : List Nat) (l : List α)
    (h : order.Perm (List.range l.length)) : (permuteIdx order l).Perm l := by
  have hp := h.filterMap (fun i => l[i]?)
  rw [show List.filterMap (fun i => l[i]?) (List.range l.length) = l from permuteIdx_range l] at hp
  exact hp

/-! ## Helper lemmas about the multiprocessing result channel -/

theorem flatAll_nil_blocks (gs : List Nat) (f : Nat → List α)
    (h : ∀ g ∈ gs, f g = []) : flatAll gs f = [] := by
  induction gs with
  | nil => rfl
  | cons g rest ih =>
    show f g ++ flatAll rest f = []
    rw [h g (List.mem_cons_self g rest),
      ih (fun g' hg' => h g' (List.mem_cons_of_mem g hg')), List.append_nil]

theorem flatAll_congr (gs : List Nat) (f f2 : Nat → List α)
    (h : ∀ g ∈ gs, f g = f2 g) : flatAll gs f = flatAll gs f2 := by
  induction gs with
  | nil => rfl
  | cons g rest ih =>
    show f g ++ flatAll rest f = f2 g ++ flatAll rest f2
    rw [h g (List.mem_cons_self g rest),
      ih (fun g' hg' => h g' (List.mem_cons_of_mem g hg'))]

theorem mem_flatAll (gs : List Nat) (f : Nat → List α) (g : Nat) (x : α)
    (hg : g ∈ gs) (hx : x ∈ f g) : x ∈ flatAll gs f := by
  induction gs with
  | nil => cases hg
  | cons g0 rest ih =>
    rcases List.mem_cons.mp hg with h | h
    · subst h
      exact List.mem_append_left _ hx
    · exact List.mem_append_right _ (ih h)

theorem flatAll_filter (gs : List Nat) (f : Nat → List α) (p : α → Bool) :
    (flatAll gs f).filter p = flatAll gs (fun g => (f g).filter p) := by
  induction gs with
  | nil => rfl
  | cons g rest ih =>
    show (f g ++ flatAll rest f).filter p = (f g).filter p ++ flatAll rest _
    rw [List.filter_append, ih]

theorem flatAll_eq_single (gs : List Nat) (f : Nat → List α) (D : Nat)
    (hnd : gs.Nodup) (hD : D ∈ gs) (hothers : ∀ g ∈ gs, g ≠ D → f g = []) :
    flatAll gs f = f D := by
  induction gs with
  | nil => cases hD
  | cons g rest ih =>
    obtain ⟨hnotin, hnd'⟩ := List.nodup_cons.mp hnd
    rcases List.mem_cons.mp hD with h | h
    · subst h
      have hrest : flatAll rest f = [] := by
        apply flatAll_nil_blocks
        intro g' hg'
        exact hothers g' (List.mem_cons_of_mem _ hg')
          (fun he : g' = D => hnotin (he ▸ hg'))
      show f D ++ flatAll rest f = f D
      rw [hrest, List.append_nil]
    · have hg : g ≠ D := fun he => hnotin (he ▸ h)
      show f g ++ flatAll rest f = f D
      rw [hothers g (List.mem_cons_self _ _) hg, List.nil_append]
      exact ih hnd' h (fun g' hg' hgne => hothers g' (List.mem_cons_of_mem _ hg') hgne)

theorem flatAll_cons_extract (gs : List Nat) (f : Nat → List α) (g0 : Nat) (x : α)
    (hnd : gs.Nodup) (hg0 : g0 ∈ gs) :
    (flatAll gs (fun g => if g = g0 then x :: f g else f g)).Perm (x :: flatAll gs f) := by
  induction gs with
  | nil => cases hg0
  | cons g rest ih =>
    obtain ⟨hnotin, hnd'⟩ := List.nodup_cons.mp hnd
    rcases List.mem_cons.mp hg0 with h | h
    · subst h
      have hrest : flatAll rest (fun g => if g = g0 then x :: f g else f g) = flatAll rest f :=
        flatAll_congr rest _ _ (fun g' hg' => by
          rw [if_neg (fun he : g' = g0 => hnotin (he ▸ hg'))])
      show ((if g0 = g0 then x :: f g0 else f g0) ++
        flatAll rest (fun g => if g = g0 then x :: f g else f g)).Perm
          (x :: (f g0 ++ flatAll rest f))
      rw [if_pos rfl, hrest]
      exact List.Perm.refl _
    · have hne : g ≠ g0 := fun he => hnotin (he ▸ h)
      have ihp := ih hnd' h
      show ((if g = g0 then x :: f g else f g) ++
        flatAll rest (fun g' => if g' = g0 then x :: f g' else f g')).Perm
          (x :: (f g ++ flatAll rest f))
      rw [if_neg hne]
      exact (List.Perm.append_left (f g) ihp).trans List.perm_middle

theorem flatAll_filter_key_perm (run : Nat → β → α) (key : β → Nat) :
    ∀ (l : List β) (gs : List Nat), gs.Nodup → (∀ p ∈ l, key p ∈ gs) →
    (flatAll gs (fun g => (l.filter (fun p => key p == g)).map (run g))).Perm
      (l.map (fun p => run (key p) p)) := by
  intro l
  induction l with
  | nil =>
    intro gs _ _
    have h0 : flatAll gs
        (fun g => (List.filter (fun p => key p == g) ([] : List β)).map (run g)) = [] :=
      flatAll_nil_blocks gs _ (fun g _ => rfl)
    rw [h0]
    exact List.Perm.refl _
  | cons p rest ih =>
    intro gs hnd hmem
    have hkey : key p ∈ gs := hmem p (List.mem_cons_self _ _)
    have hblocks : ∀ g ∈ gs,
        (((p :: rest).filter (fun q => key q == g)).map (run g))
        = (if g = key p
            then run (key p) p :: ((rest.filter (fun q => key q == g)).map (run g))
            else (rest.filter (fun q => key q == g)).map (run g)) := by
      intro g _
      by_cases hgp : g = key p
      · rw [if_pos hgp, List.filter_cons, if_pos (by simp [hgp]), List.map_cons, hgp]
      · rw [if_neg hgp, List.filter_cons,
          if_neg (by simp [beq_iff_eq]; exact fun he => hgp he.symm)]
    rw [flatAll_congr gs _ _ hblocks]
    refine (flatAll_cons_extract gs _ (key p) _ hnd hkey).trans ?_
    exact (ih gs hnd (fun q hq => hmem q (List.mem_cons_of_mem _ hq))).cons _

/-! ## Helper lemmas about initialization -/

theorem init_loop_none (gs : List Nat) :
    init_models_loop none gs = .ok (gs.map (fun g => (g, (none : Option PyVal)))) := by
  induction gs with
  | nil => rfl
  | cons g rest ih => simp [init_models_loop, ih]

theorem init_loop_first_error (f : InitFn) (g : Nat) (e : String) (gs2 : List Nat) :
    ∀ gs1 : List Nat, (∀ g' ∈ gs1, ∃ m, f g' = .ok m) → f g = .error e →
    init_models_loop (some f) (gs1 ++ g :: gs2) = .error e := by
  intro gs1
  induction gs1 with
  | nil =>
    intro _ hg
    simp [init_models_loop, hg]
  | cons g1 rest ih =>
    intro hok hg
    obtain ⟨m, hm⟩ := hok g1 (List.mem_cons_self _ _)
    have htail := ih (fun g' hg' => hok g' (List.mem_cons_of_mem _ hg')) hg
    show init_models_loop (some f) (g1 :: (rest ++ g :: gs2)) = .error e
    simp [init_models_loop, hm, htail]

theorem range_split (g : Nat) : ∀ n : Nat, g < n →
    ∃ l, List.range n = List.range g ++ g :: l := by
  intro n
  induction n with
  | zero => intro h; omega
  | succ m ih =>
    intro h
    by_cases hgm : g < m
    · obtain ⟨l, hl⟩ := ih hgm
      exact ⟨l ++ [m], by rw [List.range_succ, hl, List.append_assoc, List.cons_append]⟩
    · have hg : g = m := by omega
      subst hg
      exact ⟨[], by rw [List.range_succ]⟩

/-! ## Helper lemmas about the records the engines build -/

theorem worker_thread_task_id (models : Nat → Option PyVal) (func : Func)
    (td : PyVal × Nat × PyVal × PyKwargs) :
    Outcome.task_id (worker_thread models func td) = td.1 := by
  obtain ⟨t, g, a, k⟩ := td
  simp only [worker_thread]
  cases func a (enhanced_kwargs models g k) <;> rfl

theorem worker_thread_gpu_id (models : Nat → Option PyVal) (func : Func)
    (td : PyVal × Nat × PyVal × PyKwargs) :
    Outcome.gpu_id (worker_thread models func td) = td.2.1 := by
  obtain ⟨t, g, a, k⟩ := td
  simp only [worker_thread]
  cases func a (enhanced_kwargs models g k) <;> rfl

theorem run_task_mp_task_id (m : Option PyVal) (func : Func) (g : Nat)
    (t : PyVal × PyVal × PyKwargs) :
    Outcome.task_id (run_task_mp m func g t) = t.1 := by
  obtain ⟨tid, a, k⟩ := t
  simp only [run_task_mp]
  cases func a (enhanced_kwargs_mp m g k) <;> rfl

theorem run_task_mp_gpu_id (m : Option PyVal) (func : Func) (g : Nat)
    (t : PyVal × PyVal × PyKwargs) :
    Outcome.gpu_id (run_task_mp m func g t) = g := by
  obtain ⟨tid, a, k⟩ := t
  simp only [run_task_mp]
  cases func a (enhanced_kwargs_mp m g k) <;> rfl

theorem enumFromIdx_length (l : List α) : ∀ k, (enumFromIdx k l).length = l.length := by
  induction l with
  | nil => intro k; rfl
  | cons a as ih =>
    intro k
    show (enumFromIdx (k + 1) as).length + 1 = as.length + 1
    rw [ih (k + 1)]

theorem submitted_map_fst (ids tasks : List PyVal) (hlen : ids.length ≤ tasks.length) :
    (submitted ids tasks).map (fun t => t.1) = ids := by
  have h : (submitted ids tasks).map (fun t => t.1)
      = (List.zip ids tasks).map Prod.fst := by
    unfold submitted
    rw [List.map_map]
    rfl
  rw [h]
  exact List.map_fst_zip ids tasks hlen

theorem submitted_length (ids tasks : List PyVal) :
    (submitted ids tasks).length = min ids.length tasks.length := by
  unfold submitted
  rw [List.length_map, List.length_zip]

theorem prepare_tasks_map_tid (n : Nat) (ids tasks : List PyVal)
    (hlen : ids.length ≤ tasks.length) :
    (prepare_tasks n ids tasks).map (fun td => td.1) = ids := by
  have h : (prepare_tasks n ids tasks).map (fun td => td.1)
      = (enumFromIdx 0 (List.zip ids tasks)).map (fun p => Prod.fst p.2) := by
    unfold prepare_tasks
    rw [List.map_map]
    rfl
  rw [h, enumFromIdx_map_snd (List.zip ids tasks) Prod.fst 0]
  exact List.map_fst_zip ids tasks hlen

theorem prepare_tasks_length (n : Nat) (ids tasks : List PyVal) :
    (prepare_tasks n ids tasks).length = min ids.length tasks.length := by
  unfold prepare_tasks
  rw [List.length_map, enumFromIdx_length, List.length_zip]

theorem threading_results_map_tid (models : Nat → Option PyVal) (func : Func) (n : Nat)
    (ids tasks : List PyVal) (hlen : ids.length ≤ tasks.length) :
    (threading_results models func n ids tasks).map Outcome.task_id = ids := by
  unfold threading_results
  rw [List.map_map]
  have hcongr : List.map (Outcome.task_id ∘ worker_thread models func)
      (prepare_tasks n ids tasks)
      = List.map (fun td => td.1) (prepare_tasks n ids tasks) :=
    List.map_congr_left (fun td _ => worker_thread_task_id models func td)
  rw [hcongr]
  exact prepare_tasks_map_tid n ids tasks hlen

theorem threading_results_length (models : Nat → Option PyVal) (func : Func) (n : Nat)
    (ids tasks : List PyVal) :
    (threading_results models func n ids tasks).length = min ids.length tasks.length := by
  unfold threading_results
  rw [List.length_map, prepare_tasks_length]

theorem mp_channel_perm (init_fn : Option InitFn) (func : Func) (n : Nat)
    (sched : Nat → Nat) (ids tasks : List PyVal) (model : Nat → Option PyVal)
    (hinit : ∀ g, g < n → worker_init init_fn g = .ok (model g))
    (hsched : ∀ k, k < (submitted ids tasks).length → sched k < n) :
    (mp_channel init_fn func n sched ids tasks).Perm
      ((enumFromIdx 0 (submitted ids tasks)).map
        (fun kt => run_task_mp (model (sched kt.1)) func (sched kt.1) kt.2)) := by
  unfold mp_channel
  have hcongr : ∀ g ∈ List.range n, worker_outputs init_fn func sched ids tasks g
      = ((enumFromIdx 0 (submitted ids tasks)).filter (fun kt => sched kt.1 == g)).map
          (fun kt => run_task_mp (model g) func g kt.2) := by
    intro g hg
    unfold worker_outputs
    rw [hinit g (List.mem_range.mp hg)]
  rw [flatAll_congr _ _ _ hcongr]
  have hmem : ∀ p ∈ enumFromIdx 0 (submitted ids tasks),
      sched p.1 ∈ List.range n := by
    intro p hp
    have hb := mem_enumFromIdx (submitted ids tasks) 0 p hp
    exact List.mem_range.mpr (hsched p.1 (by omega))
  exact flatAll_filter_key_perm
    (fun g kt => run_task_mp (model g) func g kt.2) (fun kt => sched kt.1)
    (enumFromIdx 0 (submitted ids tasks)) (List.range n) (List.nodup_range n) hmem

theorem mp_channel_map_tid_perm (init_fn : Option InitFn) (func : Func) (n : Nat)
    (sched : Nat → Nat) (ids tasks : List PyVal) (model : Nat → Option PyVal)
    (hinit : ∀ g, g < n → worker_init init_fn g = .ok (model g))
    (hsched : ∀ k, k < (submitted ids tasks).length → sched k < n)
    (hlen : ids.length ≤ tasks.length) :
    ((mp_channel init_fn func n sched ids tasks).map Outcome.task_id).Perm ids := by
  have hp := (mp_channel_perm init_fn func n sched ids tasks model hinit hsched).map
    Outcome.task_id
  rw [List.map_map] at hp
  have hcongr : List.map (Outcome.task_id ∘ fun kt : Nat × PyVal × PyVal × PyKwargs =>
        run_task_mp (model (sched kt.1)) func (sched kt.1) kt.2)
      (enumFromIdx 0 (submitted ids tasks))
      = List.map (fun kt : Nat × PyVal × PyVal × PyKwargs => kt.2.1)
        (enumFromIdx 0 (submitted ids tasks)) :=
    List.map_congr_left
      (fun kt _ => run_task_mp_task_id (model (sched kt.1)) func (sched kt.1) kt.2)
  rw [hcongr] at hp
  have hsnd : List.map (fun kt : Nat × PyVal × PyVal × PyKwargs => kt.2.1)
      (enumFromIdx 0 (submitted ids tasks))
      = List.map (fun t : PyVal × PyVal × PyKwargs => t.1) (submitted ids tasks) :=
    enumFromIdx_map_snd (submitted ids tasks) (fun t => t.1) 0
  rw [hsnd, submitted_map_fst ids tasks hlen] at hp
  exact hp

theorem mp_channel_length (init_fn : Option InitFn) (func : Func) (n : Nat)
    (sched : Nat → Nat) (ids tasks : List PyVal) (model : Nat → Option PyVal)
    (hinit : ∀ g, g < n → worker_init init_fn g = .ok (model g))
    (hsched : ∀ k, k < (submitted ids tasks).length → sched k < n) :
    (mp_channel init_fn func n sched ids tasks).length = min ids.length tasks.length := by
  rw [(mp_channel_perm init_fn func n sched ids tasks model hinit hsched).length_eq,
    List.length_map, enumFromIdx_length, submitted_length]

theorem worker_outputs_gpu_id (init_fn : Option InitFn) (func : Func) (sched : Nat → Nat)
    (ids tasks : List PyVal) (g : Nat) :
    ∀ o ∈ worker_outputs init_fn func sched ids tasks g, Outcome.gpu_id o = g := by
  intro o ho
  unfold worker_outputs at ho
  cases hw : worker_init init_fn g with
  | error e =>
    rw [hw] at ho
    rcases List.mem_singleton.mp ho with h
    rw [h]
    rfl
  | ok m =>
    rw [hw] at ho
    obtain ⟨kt, _, hkt⟩ := List.mem_map.mp ho
    rw [← hkt]
    exact run_task_mp_gpu_id m func g kt.2

/-! ## Execute-level helper lemmas -/

theorem execute_threading_ok (init_fn : Option InitFn) (func : Func) (n : Nat)
    (tasks : List PyVal) (task_ids : Option (List PyVal)) (order : List Nat)
    (sched : Nat → Nat) (arrival : List Nat) (ms : List (Nat × Option PyVal))
    (hne : tasks ≠ [])
    (hlen : (resolve_ids task_ids tasks).length = tasks.length)
    (hint : ∀ id ∈ resolve_ids task_ids tasks, ∃ k : Int, id = PyVal.int k)
    (hms : init_models_threading init_fn n = .ok ms)
    (hord : order.Perm (List.range tasks.length)) :
    ∃ out, GPUPool_execute .threading init_fn func n tasks task_ids order sched arrival
        = some (.ok out)
      ∧ out.length = tasks.length
      ∧ (out.map Outcome.task_id).Perm (resolve_ids task_ids tasks)
      ∧ sorted_by_tid out := by
  obtain ⟨t, ts, rfl⟩ := List.exists_cons_of_ne_nil hne
  have hreslen : (threading_results (models_at ms) func n
      (resolve_ids task_ids (t :: ts)) (t :: ts)).length = (t :: ts).length := by
    rw [threading_results_length, hlen, Nat.min_self]
  have hperm1 : (permuteIdx order (threading_results (models_at ms) func n
      (resolve_ids task_ids (t :: ts)) (t :: ts))).Perm
      (threading_results (models_at ms) func n (resolve_ids task_ids (t :: ts)) (t :: ts)) := by
    apply permuteIdx_perm
    rw [hreslen]
    exact hord
  have hmap : (threading_results (models_at ms) func n
      (resolve_ids task_ids (t :: ts)) (t :: ts)).map Outcome.task_id
      = resolve_ids task_ids (t :: ts) :=
    threading_results_map_tid _ _ _ _ _ (le_of_eq hlen)
  have hallint : all_int_ids (permuteIdx order (threading_results (models_at ms) func n
      (resolve_ids task_ids (t :: ts)) (t :: ts))) := by
    intro o ho
    have hores : o ∈ threading_results (models_at ms) func n
        (resolve_ids task_ids (t :: ts)) (t :: ts) := hperm1.subset ho
    have hid : Outcome.task_id o ∈ resolve_ids task_ids (t :: ts) := by
      rw [← hmap]
      exact List.mem_map_of_mem _ hores
    exact hint _ hid
  obtain ⟨out, hsort_eq, hperm2, hsorted⟩ := pysorted_int _ hallint
  refine ⟨out, ?_, ?_, ?_, hsorted⟩
  · have h1 : GPUPool_execute .threading init_fn func n (t :: ts) task_ids order sched arrival
        = (match execute_threading init_fn func n
            (resolve_ids task_ids (t :: ts)) (t :: ts) order with
          | .error e => some (.error e)
          | .ok results => some (pysorted results)) := rfl
    have h2 : execute_threading init_fn func n
        (resolve_ids task_ids (t :: ts)) (t :: ts) order
        = .ok (permuteIdx order (threading_results (models_at ms) func n
            (resolve_ids task_ids (t :: ts)) (t :: ts))) := by
      unfold execute_threading
      rw [hms]
    rw [h1, h2]
    exact congrArg some hsort_eq
  · rw [hperm2.length_eq, hperm1.length_eq, hreslen]
  · refine ((hperm2.map Outcome.task_id).trans (hperm1.map Outcome.task_id)).trans ?_
    rw [hmap]

theorem execute_multiprocessing_ok (init_fn : Option InitFn) (func : Func) (n : Nat)
    (tasks : List PyVal) (task_ids : Option (List PyVal)) (order : List Nat)
    (sched : Nat → Nat) (arrival : List Nat) (model : Nat → Option PyVal)
    (hne : tasks ≠ [])
    (hlen : (resolve_ids task_ids tasks).length = tasks.length)
    (hint : ∀ id ∈ resolve_ids task_ids tasks, ∃ k : Int, id = PyVal.int k)
    (hinit : ∀ g, g < n → worker_init init_fn g = .ok (model g))
    (hsched : ∀ k, k < tasks.length → sched k < n)
    (harr : arrival.Perm (List.range tasks.length)) :
    ∃ out, GPUPool_execute .multiprocessing init_fn func n tasks task_ids order sched arrival
        = some (.ok out)
      ∧ out.length = tasks.length
      ∧ (out.map Outcome.task_id).Perm (resolve_ids task_ids tasks)
      ∧ sorted_by_tid out := by
  have hsub_len : (submitted (resolve_ids task_ids tasks) tasks).length = tasks.length := by
    rw [submitted_length, hlen, Nat.min_self]
  have hsched2 : ∀ k, k < (submitted (resolve_ids task_ids tasks) tasks).length →
      sched k < n := by
    intro k hk
    rw [hsub_len] at hk
    exact hsched k hk
  have hchanlen : (mp_channel init_fn func n sched (resolve_ids task_ids tasks) tasks).length
      = tasks.length := by
    rw [mp_channel_length init_fn func n sched _ tasks model hinit hsched2, hlen, Nat.min_self]
  have harrperm : (permuteIdx arrival
      (mp_channel init_fn func n sched (resolve_ids task_ids tasks) tasks)).Perm
      (mp_channel init_fn func n sched (resolve_ids task_ids tasks) tasks) := by
    apply permuteIdx_perm
    rw [hchanlen]
    exact harr
  have harrlen : (permuteIdx arrival
      (mp_channel init_fn func n sched (resolve_ids task_ids tasks) tasks)).length
      = tasks.length := by
    rw [harrperm.length_eq, hchanlen]
  have hexec_mp : execute_multiprocessing init_fn func n sched arrival
      (resolve_ids task_ids tasks) tasks
      = some (permuteIdx arrival
          (mp_channel init_fn func n sched (resolve_ids task_ids tasks) tasks)) := by
    unfold execute_multiprocessing
    rw [if_pos (le_of_eq harrlen.symm), ← harrlen, List.take_length]
  have htid : ((permuteIdx arrival
      (mp_channel init_fn func n sched (resolve_ids task_ids tasks) tasks)).map
        Outcome.task_id).Perm (resolve_ids task_ids tasks) :=
    (harrperm.map _).trans
      (mp_channel_map_tid_perm init_fn func n sched _ tasks model hinit hsched2
        (le_of_eq hlen))
  have hallint : all_int_ids (permuteIdx arrival
      (mp_channel init_fn func n sched (resolve_ids task_ids tasks) tasks)) := by
    intro o ho
    have hmem : Outcome.task_id o ∈ (permuteIdx arrival
        (mp_channel init_fn func n sched (resolve_ids task_ids tasks) tasks)).map
          Outcome.task_id := List.mem_map_of_mem _ ho
    exact hint _ (htid.subset hmem)
  obtain ⟨out, hsort_eq, hperm2, hsorted⟩ := pysorted_int _ hallint
  refine ⟨out, ?_, ?_, ?_, hsorted⟩
  · obtain ⟨t, ts, rfl⟩ := List.exists_cons_of_ne_nil hne
    have h1 : GPUPool_execute .multiprocessing init_fn func n (t :: ts) task_ids order
          sched arrival
        = (match execute_multiprocessing init_fn func n sched arrival
            (resolve_ids task_ids (t :: ts)) (t :: ts) with
          | some results => some (pysorted results)
          | none => none) := rfl
    rw [h1, hexec_mp]
    exact congrArg some hsort_eq
  · rw [hperm2.length_eq, harrlen]
  · exact (hperm2.map _).trans htid

theorem run_mem_mp_channel (init_fn : Option InitFn) (func : Func) (n : Nat)
    (sched : Nat → Nat) (ids tasks : List PyVal) (j : Nat)
    (tj : PyVal × PyVal × PyKwargs) (g2 : Nat) (m2 : Option PyVal)
    (hj : (submitted ids tasks)[j]? = some tj) (hs : sched j = g2) (hg : g2 < n)
    (hw : worker_init init_fn g2 = .ok m2) :
    run_task_mp m2 func g2 tj ∈ mp_channel init_fn func n sched ids tasks := by
  unfold mp_channel
  apply mem_flatAll _ _ g2 _ (List.mem_range.mpr hg)
  unfold worker_outputs
  rw [hw]
  refine List.mem_map.mpr ⟨(j, tj), ?_, rfl⟩
  refine List.mem_filter.mpr ⟨?_, ?_⟩
  · have hget := enumFromIdx_getElem? (submitted ids tasks) 0 j
    rw [hj] at hget
    rw [Nat.zero_add] at hget
    exact List.getElem?_mem hget
  · simp [hs]

/-! ## Claim theorems -/

/-- Claim C1 (corrected): when the user initializer raises for a device
under the shared (threading) strategy, execute does NOT recover: the
initializer's exception propagates out of execute (the source wraps the
initialization loop in no try/except), and no Outcome is produced for any
task of the batch.  g is the first device whose initialization raises. -/
theorem c1_threading_init_error_propagates (f : InitFn) (func : Func) (n : Nat)
    (tasks : List PyVal) (task_ids : Option (List PyVal)) (order : List Nat)
    (sched : Nat → Nat) (arrival : List Nat) (g : Nat) (e : String)
    (hne : tasks ≠ []) (hg : g < n)
    (hbefore : ∀ g2, g2 < g → ∃ m, f g2 = .ok m)
    (hfail : f g = .error e) :
    GPUPool_execute .threading (some f) func n tasks task_ids order sched arrival
      = some (.error e) := by
  obtain ⟨t, ts, rfl⟩ := List.exists_cons_of_ne_nil hne
  obtain ⟨l, hl⟩ := range_split g n hg
  have hinit : init_models_threading (some f) n = .error e := by
    unfold init_models_threading
    rw [hl]
    exact init_loop_first_error f g e l (List.range g)
      (fun g2 hg2 => hbefore g2 (List.mem_range.mp hg2)) hfail
  have h1 : GPUPool_execute .threading (some f) func n (t :: ts) task_ids order sched arrival
      = (match execute_threading (some f) func n
          (resolve_ids task_ids (t :: ts)) (t :: ts) order with
        | .error e2 => some (.error e2)
        | .ok results => some (pysorted results)) := rfl
  have h2 : execute_threading (some f) func n
      (resolve_ids task_ids (t :: ts)) (t :: ts) order = .error e := by
    unfold execute_threading
    rw [hinit]
  rw [h1, h2]

/-- Claim C1 counterexample: with an initializer that raises "boom", the
threading-strategy execute on a one-task batch evaluates to a raised
exception (some (.error "boom")), not to a list of failed Outcomes — so
"execute does not raise" is false on the code. -/
theorem c1_counterexample_execute_raises :
    GPUPool_execute .threading (some (fun _ => .error "boom")) (fun _ _ => .ok (.int 0)) 1
      [.int 5] none [0] (fun _ => 0) [] = some (.error "boom") := rfl

/-- Claim C1 witness: the amended theorem applied at a concrete pool with
two devices whose first initialization raises. -/
theorem c1_witness :
    GPUPool_execute .threading
      (some (fun g => if g = 0 then .error "boom" else .ok (.int 1)))
      (fun _ _ => .ok (.int 0)) 2 [.int 5, .int 6] none [0, 1] (fun _ => 0) []
      = some (.error "boom") :=
  c1_threading_init_error_propagates
    (fun g => if g = 0 then .error "boom" else .ok (.int 1))
    (fun _ _ => .ok (.int 0)) 2 [.int 5, .int 6] none [0, 1] (fun _ => 0) [] 0 "boom"
    (by simp) (by omega) (fun g2 hg2 => absurd hg2 (by omega)) rfl

/-- Claim C4 (corrected): both engines normalize payloads identically, and
both follow the spec's priority order amended so that the second rule reads
"a 2-element TUPLE whose second element is a mapping" — the code tests
isinstance(task, tuple), so a 2-element list with a mapping second element
falls through to the plain-sequence rule instead. -/
theorem c4_normalization_follows_amended_spec (t : PyVal) :
    normalize_task_threading t = normalize_task_spec_amended t
    ∧ normalize_task_multiprocessing t = normalize_task_spec_amended t := by
  constructor <;> rfl

/-- Claim C4 counterexample: on the 2-element list [0, {}] the code yields
(args = the whole list, kwargs = {}), while the spec's sequence rule yields
(args = 0, kwargs = {}); the two disagree, so normalization does not follow
the spec's rules as written. -/
theorem c4_counterexample_two_element_list :
    normalize_task_threading (.list [.int 0, .dict []]) = (.list [.int 0, .dict []], [])
    ∧ normalize_task_spec (.list [.int 0, .dict []]) = (.int 0, [])
    ∧ normalize_task_threading (.list [.int 0, .dict []])
        ≠ normalize_task_spec (.list [.int 0, .dict []]) := by
  refine ⟨rfl, rfl, ?_⟩
  intro h
  simp [normalize_task_threading, normalize_task_spec] at h

/-- Claim C5 (corrected): every record produced by either engine carries
the success flag, the task id and the device id; a success record
additionally carries the elapsed duration and the produced value, while a
failure record carries the error description and NO elapsed duration (the
failure branches of both workers build a dict without processing_time). -/
theorem c5_outcome_fields (models : Nat → Option PyVal) (init_fn : Option InitFn)
    (func : Func) (n : Nat) (sched : Nat → Nat) (ids tasks : List PyVal) (o : Outcome)
    (ho : o ∈ threading_results models func n ids tasks
        ∨ o ∈ mp_channel init_fn func n sched ids tasks) :
    (o.success = true ∧ (Outcome.processing_time_opt o).isSome = true
        ∧ (Outcome.result_opt o).isSome = true ∧ Outcome.error_opt o = none)
    ∨ (o.success = false ∧ (Outcome.error_opt o).isSome = true
        ∧ Outcome.processing_time_opt o = none ∧ Outcome.result_opt o = none) := by
  cases o with
  | succ t g p r => exact Or.inl ⟨rfl, rfl, rfl, rfl⟩
  | fail t g e => exact Or.inr ⟨rfl, rfl, rfl, rfl⟩

/-- Claim C5 counterexample: a failing task produces a failure record with
no processing_time key, refuting "every Outcome ... contains ... the
elapsed duration". -/
theorem c5_counterexample_failure_without_duration :
    threading_results (fun _ => none) (fun _ _ => .error "x") 1 [.int 0] [.int 1]
      = [Outcome.fail (.int 0) 0 "x"]
    ∧ Outcome.processing_time_opt (Outcome.fail (.int 0) 0 "x") = none := ⟨rfl, rfl⟩

/-- Claim C5 witness: the amended theorem applied to a concrete record
produced by the threading engine. -/
theorem c5_witness :
    ((Outcome.succ (.int 0) 0 0 (.int 7)).success = true
        ∧ (Outcome.processing_time_opt (Outcome.succ (.int 0) 0 0 (.int 7))).isSome = true
        ∧ (Outcome.result_opt (Outcome.succ (.int 0) 0 0 (.int 7))).isSome = true
        ∧ Outcome.error_opt (Outcome.succ (.int 0) 0 0 (.int 7)) = none)
    ∨ ((Outcome.succ (.int 0) 0 0 (.int 7)).success = false
        ∧ (Outcome.error_opt (Outcome.succ (.int 0) 0 0 (.int 7))).isSome = true
        ∧ Outcome.processing_time_opt (Outcome.succ (.int 0) 0 0 (.int 7)) = none
        ∧ Outcome.result_opt (Outcome.succ (.int 0) 0 0 (.int 7)) = none) :=
  c5_outcome_fields (fun _ => none) none (fun _ _ => .ok (.int 7)) 1 (fun _ => 0)
    [.int 0] [.int 1] (Outcome.succ (.int 0) 0 0 (.int 7))
    (Or.inl (List.mem_singleton.mpr rfl))

/-- Claim C7: calling shutdown twice in a row, or calling it without a
prior start (under either strategy), is a no-op and raises nothing: a
freshly constructed pool's shutdown returns the pool unchanged with no
actions, and after any successful shutdown a second shutdown is again a
no-op. -/
theorem c7_shutdown_idempotent :
    (∀ (a : Approach) (n : Nat),
      GPUPool_shutdown (GPUPool_mk a n) = .ok (GPUPool_mk a n, []))
    ∧ (∀ s s2 acts, GPUPool_shutdown s = .ok (s2, acts) →
        GPUPool_shutdown s2 = .ok (s2, [])) := by
  constructor
  · intro a n
    cases a <;> rfl
  · intro s s2 acts h
    by_cases happ : s.approach = Approach.multiprocessing
    · rw [GPUPool_shutdown, if_pos happ] at h
      cases hst : s.started with
      | none =>
        rw [hst] at h
        cases h
      | some b =>
        cases b with
        | false =>
          rw [hst] at h
          injection h with h2
          have hs2 : s2 = s := (congrArg Prod.fst h2).symm
          subst hs2
          rw [GPUPool_shutdown, if_pos happ, hst]
        | true =>
          rw [hst] at h
          injection h with h2
          have hs2 : s2 = { s with shutdown_ev := true, started := some false } :=
            (congrArg Prod.fst h2).symm
          subst hs2
          rw [GPUPool_shutdown, if_pos happ]
    · rw [GPUPool_shutdown, if_neg happ] at h
      injection h with h2
      have hs2 : s2 = s := (congrArg Prod.fst h2).symm
      subst hs2
      rw [GPUPool_shutdown, if_neg happ]

/-- Claim C7 witness: the second conjunct applied to a concrete started
multiprocessing pool: its first shutdown succeeds and the immediate second
shutdown is a no-op. -/
theorem c7_witness :
    GPUPool_shutdown (PoolState.mk Approach.multiprocessing 2 (some false) [0, 1] true)
      = .ok (PoolState.mk Approach.multiprocessing 2 (some false) [0, 1] true, []) :=
  c7_shutdown_idempotent.2
    (PoolState.mk Approach.multiprocessing 2 (some true) [0, 1] false)
    (PoolState.mk Approach.multiprocessing 2 (some false) [0, 1] true)
    [PoolAction.put_sentinel, PoolAction.put_sentinel,
      PoolAction.join_worker 0, PoolAction.join_worker 1]
    rfl

/-- Claim C10: for every combination of arguments, calling gpu_map raises
a TypeError before executing any task: it passes GPUPool seven positional
arguments (among them a device count and a model_size_gb value) while the
constructor accepts only five. -/
theorem c10_gpu_map_raises_type_error (func : Func) (tasks : List PyVal) :
    gpu_map func tasks
      = some (.error
          "TypeError: __init__() takes from 1 to 6 positional arguments but 8 were given")
    ∧ GPUPool_init_nparams < gpu_map_ctor_nargs := ⟨rfl, by decide⟩

/-- Claim C2 (corrected): under the THREADING strategy the record produced
for the i-th submitted task always carries device id i mod deviceCount —
the assignment is a pure function of the submission index, hence identical
on every resubmission.  Under the multiprocessing strategy the device is
whichever worker dequeues the task from the single shared queue (see the
counterexample), so no such mod law holds there. -/
theorem c2_threading_round_robin (models : Nat → Option PyVal) (func : Func) (n : Nat)
    (ids tasks : List PyVal) (i : Nat) (o : Outcome) (hn : 0 < n)
    (ho : (threading_results models func n ids tasks)[i]? = some o) :
    Outcome.gpu_id o = i % n := by
  unfold threading_results at ho
  rw [List.getElem?_map] at ho
  cases hp : (prepare_tasks n ids tasks)[i]? with
  | none =>
    rw [hp] at ho
    cases ho
  | some td =>
    rw [hp] at ho
    have ho2 : worker_thread models func td = o := by simpa using ho
    have hgpu : td.2.1 = i % n := by
      unfold prepare_tasks at hp
      rw [List.getElem?_map] at hp
      cases he : (enumFromIdx 0 (List.zip ids tasks))[i]? with
      | none =>
        rw [he] at hp
        cases hp
      | some it =>
        rw [he] at hp
        simp only [Option.map_some'] at hp
        rw [enumFromIdx_getElem?] at he
        cases hz : (List.zip ids tasks)[i]? with
        | none =>
          rw [hz] at he
          cases he
        | some tt =>
          rw [hz] at he
          simp only [Option.map_some'] at he
          injection he with he2
          injection hp with hp2
          rw [← hp2, ← he2]
          simp
    rw [← ho2, worker_thread_gpu_id, hgpu]

/-- Claim C2 counterexample: under multiprocessing with 2 devices and the
realizable schedule in which worker 0 dequeues every item from the shared
queue, task 1 executes on device 0, not on device 1 mod 2 = 1: the
task-to-device mapping is not index mod deviceCount and is not determined
by the submission order alone. -/
theorem c2_counterexample_mp_schedule :
    execute_multiprocessing none (fun _ _ => .ok (.int 7)) 2 (fun _ => 0) [0, 1]
        [.int 0, .int 1] [.int 10, .int 20]
      = some [Outcome.succ (.int 0) 0 0 (.int 7), Outcome.succ (.int 1) 0 0 (.int 7)]
    ∧ Outcome.gpu_id (Outcome.succ (.int 1) 0 0 (.int 7)) ≠ 1 % 2 := ⟨rfl, by decide⟩

/-- Claim C2 witness: the amended theorem at a concrete 3-task batch on 2
devices, where the record of task index 2 carries device 2 mod 2 = 0. -/
theorem c2_witness :
    Outcome.gpu_id (Outcome.succ (.int 2) 0 0 (.int 9)) = 2 % 2 :=
  c2_threading_round_robin (fun _ => none) (fun _ _ => .ok (.int 9)) 2
    [.int 0, .int 1, .int 2] [.int 4, .int 5, .int 6] 2
    (Outcome.succ (.int 2) 0 0 (.int 9)) (by decide) rfl

/-- Claim C3: for every non-empty batch whose (resolved) task-id list has
one id per task and integer ids, under both strategies — the threading one
whenever model initialization succeeds and the futures complete in any
order, the multiprocessing one whenever every worker initializes, every
queue item is dequeued by some live worker and the records arrive in any
order — execute returns exactly one Outcome per submitted task: the list
has length len(tasks) and its task ids are a permutation of the submitted
ids (no task dropped, none duplicated). -/
theorem c3_one_outcome_per_task :
    (∀ (init_fn : Option InitFn) (func : Func) (n : Nat) (tasks : List PyVal)
      (task_ids : Option (List PyVal)) (order : List Nat) (sched : Nat → Nat)
      (arrival : List Nat) (ms : List (Nat × Option PyVal)),
      tasks ≠ [] →
      (resolve_ids task_ids tasks).length = tasks.length →
      (∀ id ∈ resolve_ids task_ids tasks, ∃ k : Int, id = PyVal.int k) →
      init_models_threading init_fn n = .ok ms →
      order.Perm (List.range tasks.length) →
      ∃ out, GPUPool_execute .threading init_fn func n tasks task_ids order sched arrival
          = some (.ok out)
        ∧ out.length = tasks.length
        ∧ (out.map Outcome.task_id).Perm (resolve_ids task_ids tasks))
    ∧ (∀ (init_fn : Option InitFn) (func : Func) (n : Nat) (tasks : List PyVal)
      (task_ids : Option (List PyVal)) (order : List Nat) (sched : Nat → Nat)
      (arrival : List Nat) (model : Nat → Option PyVal),
      tasks ≠ [] →
      (resolve_ids task_ids tasks).length = tasks.length →
      (∀ id ∈ resolve_ids task_ids tasks, ∃ k : Int, id = PyVal.int k) →
      (∀ g, g < n → worker_init init_fn g = .ok (model g)) →
      (∀ k, k < tasks.length → sched k < n) →
      arrival.Perm (List.range tasks.length) →
      ∃ out, GPUPool_execute .multiprocessing init_fn func n tasks task_ids order
            sched arrival
          = some (.ok out)
        ∧ out.length = tasks.length
        ∧ (out.map Outcome.task_id).Perm (resolve_ids task_ids tasks)) := by
  constructor
  · intro init_fn func n tasks task_ids order sched arrival ms hne hlen hint hms hord
    obtain ⟨out, h1, h2, h3, _⟩ := execute_threading_ok init_fn func n tasks task_ids
      order sched arrival ms hne hlen hint hms hord
    exact ⟨out, h1, h2, h3⟩
  · intro init_fn func n tasks task_ids order sched arrival model hne hlen hint hinit
      hsched harr
    obtain ⟨out, h1, h2, h3, _⟩ := execute_multiprocessing_ok init_fn func n tasks task_ids
      order sched arrival model hne hlen hint hinit hsched harr
    exact ⟨out, h1, h2, h3⟩

/-- Claim C3 witness: both conjuncts at a concrete 2-task batch with the
default ids, one device (threading) and one device (multiprocessing). -/
theorem c3_witness :
    (∃ out, GPUPool_execute .threading none (fun _ _ => .ok (.int 1)) 1
        [.int 8, .int 9] none [1, 0] (fun _ => 0) []
        = some (.ok out)
      ∧ out.length = ([PyVal.int 8, PyVal.int 9] : List PyVal).length
      ∧ (out.map Outcome.task_id).Perm
          (resolve_ids none [PyVal.int 8, PyVal.int 9]))
    ∧ (∃ out, GPUPool_execute .multiprocessing none (fun _ _ => .ok (.int 1)) 1
        [.int 8, .int 9] none [] (fun _ => 0) [1, 0]
        = some (.ok out)
      ∧ out.length = ([PyVal.int 8, PyVal.int 9] : List PyVal).length
      ∧ (out.map Outcome.task_id).Perm
          (resolve_ids none [PyVal.int 8, PyVal.int 9])) := by
  constructor
  · exact c3_one_outcome_per_task.1 none (fun _ _ => .ok (.int 1)) 1 [.int 8, .int 9]
      none [1, 0] (fun _ => 0) [] [(0, none)] (by simp) (by decide)
      (by
        intro id hid
        have h2 : id ∈ [PyVal.int 0, PyVal.int 1] := hid
        rcases List.mem_cons.mp h2 with h | h
        · exact ⟨0, h⟩
        · rcases List.mem_cons.mp h with h3 | h3
          · exact ⟨1, h3⟩
          · cases h3)
      rfl (by decide)
  · exact c3_one_outcome_per_task.2 none (fun _ _ => .ok (.int 1)) 1 [.int 8, .int 9]
      none [] (fun _ => 0) [1, 0] (fun _ => none) (by simp) (by decide)
      (by
        intro id hid
        have h2 : id ∈ [PyVal.int 0, PyVal.int 1] := hid
        rcases List.mem_cons.mp h2 with h | h
        · exact ⟨0, h⟩
        · rcases List.mem_cons.mp h with h3 | h3
          · exact ⟨1, h3⟩
          · cases h3)
      (fun g _ => rfl) (fun k _ => Nat.zero_lt_one) (by decide)

/-- Claim C6 (corrected): the list execute returns is ordered ascending by
task id whenever the batch's task ids are all integers (the shape of the
default ids and the canonical mutually comparable batch), under both
strategies and any completion, schedule and arrival nondeterminism; but
when a batch mixes non-comparable id types, the sort raises TypeError and
execute propagates it instead of returning a stably-ordered list (see the
counterexample). -/
theorem c6_execute_sorted_by_task_id :
    (∀ (init_fn : Option InitFn) (func : Func) (n : Nat) (tasks : List PyVal)
      (task_ids : Option (List PyVal)) (order : List Nat) (sched : Nat → Nat)
      (arrival : List Nat) (ms : List (Nat × Option PyVal)),
      tasks ≠ [] →
      (resolve_ids task_ids tasks).length = tasks.length →
      (∀ id ∈ resolve_ids task_ids tasks, ∃ k : Int, id = PyVal.int k) →
      init_models_threading init_fn n = .ok ms →
      order.Perm (List.range tasks.length) →
      ∃ out, GPUPool_execute .threading init_fn func n tasks task_ids order sched arrival
          = some (.ok out)
        ∧ sorted_by_tid out)
    ∧ (∀ (init_fn : Option InitFn) (func : Func) (n : Nat) (tasks : List PyVal)
      (task_ids : Option (List PyVal)) (order : List Nat) (sched : Nat → Nat)
      (arrival : List Nat) (model : Nat → Option PyVal),
      tasks ≠ [] →
      (resolve_ids task_ids tasks).length = tasks.length →
      (∀ id ∈ resolve_ids task_ids tasks, ∃ k : Int, id = PyVal.int k) →
      (∀ g, g < n → worker_init init_fn g = .ok (model g)) →
      (∀ k, k < tasks.length → sched k < n) →
      arrival.Perm (List.range tasks.length) →
      ∃ out, GPUPool_execute .multiprocessing init_fn func n tasks task_ids order
            sched arrival
          = some (.ok out)
        ∧ sorted_by_tid out) := by
  constructor
  · intro init_fn func n tasks task_ids order sched arrival ms hne hlen hint hms hord
    obtain ⟨out, h1, _, _, h4⟩ := execute_threading_ok init_fn func n tasks task_ids
      order sched arrival ms hne hlen hint hms hord
    exact ⟨out, h1, h4⟩
  · intro init_fn func n tasks task_ids order sched arrival model hne hlen hint hinit
      hsched harr
    obtain ⟨out, h1, _, _, h4⟩ := execute_multiprocessing_ok init_fn func n tasks task_ids
      order sched arrival model hne hlen hint hinit hsched harr
    exact ⟨out, h1, h4⟩

/-- Claim C6 counterexample: a 2-task batch whose ids mix an int and a str
is not returned as an ordered list: the sort's key comparison raises
TypeError (as CPython's sorted does on int-vs-str) and execute propagates
the exception. -/
theorem c6_counterexample_mixed_ids_raise :
    GPUPool_execute .threading none (fun _ _ => .ok (.int 0)) 1 [.int 1, .int 2]
        (some [.int 0, .str "a"]) [0, 1] (fun _ => 0) []
      = some (.error "TypeError: '<' not supported between instances") := rfl

/-- Claim C6 witness: both conjuncts of the amended theorem at a concrete
2-task batch with default (integer) ids. -/
theorem c6_witness :
    (∃ out, GPUPool_execute .threading none (fun _ _ => .ok (.int 1)) 1
        [.int 8, .int 9] none [1, 0] (fun _ => 0) []
        = some (.ok out)
      ∧ sorted_by_tid out)
    ∧ (∃ out, GPUPool_execute .multiprocessing none (fun _ _ => .ok (.int 1)) 1
        [.int 8, .int 9] none [] (fun _ => 0) [1, 0]
        = some (.ok out)
      ∧ sorted_by_tid out) := by
  constructor
  · exact c6_execute_sorted_by_task_id.1 none (fun _ _ => .ok (.int 1)) 1 [.int 8, .int 9]
      none [1, 0] (fun _ => 0) [] [(0, none)] (by simp) (by decide)
      (by
        intro id hid
        have h2 : id ∈ [PyVal.int 0, PyVal.int 1] := hid
        rcases List.mem_cons.mp h2 with h | h
        · exact ⟨0, h⟩
        · rcases List.mem_cons.mp h with h3 | h3
          · exact ⟨1, h3⟩
          · cases h3)
      rfl (by decide)
  · exact c6_execute_sorted_by_task_id.2 none (fun _ _ => .ok (.int 1)) 1 [.int 8, .int 9]
      none [] (fun _ => 0) [1, 0] (fun _ => none) (by simp) (by decide)
      (by
        intro id hid
        have h2 : id ∈ [PyVal.int 0, PyVal.int 1] := hid
        rcases List.mem_cons.mp h2 with h | h
        · exact ⟨0, h⟩
        · rcases List.mem_cons.mp h with h3 | h3
          · exact ⟨1, h3⟩
          · cases h3)
      (fun g _ => rfl) (fun k _ => Nat.zero_lt_one) (by decide)

/-- Claim C8: a work function that raises for task K yields a failed
Outcome for K carrying the error's description, and sibling tasks are
unaffected: under threading the j-th record is computed from task j's own
data alone (identical under any work function agreeing on task j's input),
and under multiprocessing every scheduled task still contributes its own
record to the result channel regardless of K's failure. -/
theorem c8_task_failure_is_isolated :
    (∀ (models : Nat → Option PyVal) (func func2 : Func) (n : Nat)
      (ids tasks : List PyVal) (K : Nat) (tdK : PyVal × Nat × PyVal × PyKwargs)
      (e : String),
      (prepare_tasks n ids tasks)[K]? = some tdK →
      func tdK.2.2.1 (enhanced_kwargs models tdK.2.1 tdK.2.2.2) = .error e →
      ((threading_results models func n ids tasks)[K]?
          = some (Outcome.fail tdK.1 tdK.2.1 e)
        ∧ ∀ (j : Nat) (tdj : PyVal × Nat × PyVal × PyKwargs),
          (prepare_tasks n ids tasks)[j]? = some tdj →
          func2 tdj.2.2.1 (enhanced_kwargs models tdj.2.1 tdj.2.2.2)
            = func tdj.2.2.1 (enhanced_kwargs models tdj.2.1 tdj.2.2.2) →
          (threading_results models func2 n ids tasks)[j]?
            = (threading_results models func n ids tasks)[j]?))
    ∧ (∀ (init_fn : Option InitFn) (func : Func) (n : Nat) (sched : Nat → Nat)
      (ids tasks : List PyVal) (m : Option PyVal) (K : Nat)
      (tK : PyVal × PyVal × PyKwargs) (e : String) (g : Nat),
      g < n → worker_init init_fn g = .ok m →
      (submitted ids tasks)[K]? = some tK → sched K = g →
      func tK.2.1 (enhanced_kwargs_mp m g tK.2.2) = .error e →
      (Outcome.fail tK.1 g e ∈ mp_channel init_fn func n sched ids tasks
        ∧ ∀ (j : Nat) (tj : PyVal × PyVal × PyKwargs) (g2 : Nat) (m2 : Option PyVal),
          (submitted ids tasks)[j]? = some tj → sched j = g2 → g2 < n →
          worker_init init_fn g2 = .ok m2 →
          run_task_mp m2 func g2 tj ∈ mp_channel init_fn func n sched ids tasks)) := by
  constructor
  · intro models func func2 n ids tasks K tdK e hK hfail
    constructor
    · unfold threading_results
      rw [List.getElem?_map, hK]
      simp only [Option.map_some']
      obtain ⟨t1, g1, a1, k1⟩ := tdK
      dsimp only at hfail ⊢
      simp only [worker_thread]
      rw [hfail]
    · intro j tdj hj hagree
      unfold threading_results
      rw [List.getElem?_map, List.getElem?_map, hj]
      simp only [Option.map_some']
      obtain ⟨t1, g1, a1, k1⟩ := tdj
      dsimp only at hagree
      simp only [worker_thread]
      rw [hagree]
  · intro init_fn func n sched ids tasks m K tK e g hg hw hK hs hfail
    constructor
    · have hrun : run_task_mp m func g tK = Outcome.fail tK.1 g e := by
        obtain ⟨t1, a1, k1⟩ := tK
        dsimp only at hfail ⊢
        simp only [run_task_mp]
        rw [hfail]
      rw [← hrun]
      exact run_mem_mp_channel init_fn func n sched ids tasks K tK g m hK hs hg hw
    · intro j tj g2 m2 hj hs2 hg2 hw2
      exact run_mem_mp_channel init_fn func n sched ids tasks j tj g2 m2 hj hs2 hg2 hw2

/-- Claim C8 witness: both conjuncts at a concrete 2-task batch whose
work function raises exactly on the payload of task 1. -/
theorem c8_witness :
    ((threading_results (fun _ => none)
        (fun a _ => match a with | PyVal.tuple [.int 20] => .error "bad" | _ => .ok (.int 1))
        1 [.int 0, .int 1] [.int 10, .int 20])[1]?
      = some (Outcome.fail (.int 1) 0 "bad"))
    ∧ (Outcome.fail (.int 1) 0 "bad"
        ∈ mp_channel none
          (fun a _ => match a with | PyVal.tuple [.int 20] => .error "bad" | _ => .ok (.int 1))
          1 (fun _ => 0) [.int 0, .int 1] [.int 10, .int 20]) := by
  constructor
  · exact (c8_task_failure_is_isolated.1 (fun _ => none)
      (fun a _ => match a with | PyVal.tuple [.int 20] => .error "bad" | _ => .ok (.int 1))
      (fun a _ => match a with | PyVal.tuple [.int 20] => .error "bad" | _ => .ok (.int 1))
      1 [.int 0, .int 1] [.int 10, .int 20] 1
      (PyVal.int 1, 1 % 1, PyVal.tuple [.int 20], []) "bad" rfl rfl).1
  · exact (c8_task_failure_is_isolated.2 none
      (fun a _ => match a with | PyVal.tuple [.int 20] => .error "bad" | _ => .ok (.int 1))
      1 (fun _ => 0) [.int 0, .int 1] [.int 10, .int 20] none 1
      (PyVal.int 1, PyVal.tuple [.int 20], []) "bad" 0 Nat.zero_lt_one rfl rfl rfl
      rfl).1

/-- Claim C9: under the isolated (multiprocessing) strategy, if the
initializer raises for device D, the result channel carries exactly one
record with device id D — the synthetic record with the sentinel task id
INIT_FAILED wrapping the initializer's error — and no other record ever
reports device D. -/
theorem c9_init_failed_sentinel (init_fn : Option InitFn) (func : Func) (n : Nat)
    (sched : Nat → Nat) (ids tasks : List PyVal) (D : Nat) (e : String)
    (hD : D < n) (hfail : worker_init init_fn D = .error e) :
    (mp_channel init_fn func n sched ids tasks).filter
        (fun o => Outcome.gpu_id o == D)
      = [Outcome.fail (.str "INIT_FAILED") D ("Worker initialization failed: " ++ e)] := by
  unfold mp_channel
  rw [flatAll_filter]
  have hothers : ∀ g ∈ List.range n, g ≠ D →
      (worker_outputs init_fn func sched ids tasks g).filter
        (fun o => Outcome.gpu_id o == D) = [] := by
    intro g hg hne
    apply List.filter_eq_nil_iff.mpr
    intro o ho
    rw [worker_outputs_gpu_id init_fn func sched ids tasks g o ho]
    simp [hne]
  rw [flatAll_eq_single (List.range n) _ D (List.nodup_range n)
    (List.mem_range.mpr hD) hothers]
  unfold worker_outputs
  rw [hfail]
  simp [Outcome.gpu_id]

/-- Claim C9 witness: the theorem at a concrete pool of 2 devices whose
device 0 initializer raises "boom" while device 1 runs the single task. -/
theorem c9_witness :
    (mp_channel (some (fun g => if g = 0 then .error "boom" else .ok (.int 1)))
        (fun _ _ => .ok (.int 2)) 2 (fun _ => 1) [.int 0] [.int 3]).filter
        (fun o => Outcome.gpu_id o == 0)
      = [Outcome.fail (.str "INIT_FAILED") 0 ("Worker initialization failed: " ++ "boom")] :=
  c9_init_failed_sentinel (some (fun g => if g = 0 then .error "boom" else .ok (.int 1)))
    (fun _ _ => .ok (.int 2)) 2 (fun _ => 1) [.int 0] [.int 3] 0 "boom"
    (by omega) rfl

end Saber
